import Mathlib

/-!
Shallow embedding of `src/dmbrl/modeling/models/NN.py` (class `NN`), the
ensemble neural-network model of the POPLIN repository, together with proofs
of the specification claims about it.

Modelling conventions:
  * machine floats are modelled by exact rationals `ℚ`;
  * dense tensors of shape `[K, B, D]` are functions `Fin K → Fin B → Fin D → ℚ`;
  * numpy / TensorFlow runtime failures (raised exceptions) are `Except String`;
  * randomness (`np.random.permutation`, `np.random.randint`, the per-row
    `argsort`-of-uniform shuffles) is passed in as explicit parameters, with the
    properties numpy guarantees of them (being a permutation, being in range)
    stated as hypotheses or enforced structurally.
-/

namespace POPLIN

/-! ### Prediction aggregation (`NN.finalize` lines 184-186,
`NN.create_prediction_tensors` lines 321-329, `NN.predict` lines 302-313)

`sy_pred_mean2d_fac` is the factored per-member network output
`_compile_outputs(sy_pred_in2d)`; the aggregation below is defined over an
arbitrary such factored output tensor `fac`. -/

/-- `self.sy_pred_mean2d = tf.reduce_mean(self.sy_pred_mean2d_fac, axis=0)`
(`NN.finalize`, line 185): mean over the member axis of a `[K, B, D]` tensor. -/
def sy_pred_mean2d {K B D : ℕ} (fac : Fin K → Fin B → Fin D → ℚ) :
    Fin B → Fin D → ℚ :=
  fun b d => (∑ k, fac k b d) / (K : ℚ)

/-- `self.sy_pred_var2d = tf.reduce_mean(tf.square(self.sy_pred_mean2d_fac -
self.sy_pred_mean2d), axis=0)` (`NN.finalize`, line 186). -/
def sy_pred_var2d {K B D : ℕ} (fac : Fin K → Fin B → Fin D → ℚ) :
    Fin B → Fin D → ℚ :=
  fun b d => (∑ k, (fac k b d - sy_pred_mean2d fac b d) ^ 2) / (K : ℚ)

/-- `NN.predict` on rank-2 input with `factored=True` (lines 303-308): returns
the factored per-member means unchanged. -/
def predict2dFactored {K B D : ℕ} (fac : Fin K → Fin B → Fin D → ℚ) :
    Fin K → Fin B → Fin D → ℚ :=
  fac

/-- `NN.predict` on rank-2 input with `factored=False` (lines 309-313): returns
the pair `(sy_pred_mean2d, sy_pred_var2d)`. -/
def predict2dAggregate {K B D : ℕ} (fac : Fin K → Fin B → Fin D → ℚ) :
    (Fin B → Fin D → ℚ) × (Fin B → Fin D → ℚ) :=
  (sy_pred_mean2d fac, sy_pred_var2d fac)

/-- Claim C1, spec side: the arithmetic average across the member axis. -/
def specEnsembleMean {K B D : ℕ} (fac : Fin K → Fin B → Fin D → ℚ) :
    Fin B → Fin D → ℚ :=
  fun b d => (1 / (K : ℚ)) * ∑ k, fac k b d

/-- Claim C1, spec side: the mean squared deviation of each member's prediction
from the ensemble average, per output dimension (population variance, no Bessel
correction). -/
def specMeanSqDeviation {K B D : ℕ} (fac : Fin K → Fin B → Fin D → ℚ) :
    Fin B → Fin D → ℚ :=
  fun b d => (1 / (K : ℚ)) * ∑ k, (fac k b d - specEnsembleMean fac b d) ^ 2

theorem sy_pred_mean2d_eq_specEnsembleMean {K B D : ℕ}
    (fac : Fin K → Fin B → Fin D → ℚ) :
    sy_pred_mean2d fac = specEnsembleMean fac := by
  funext b d
  rw [sy_pred_mean2d, specEnsembleMean, one_div, inv_mul_eq_div]

/-- C1: for a finalized model with `K ≥ 1` members, on a rank-2 input batch of
size `B ≥ 1`, `predict(x, factored=False)` returns a mean equal to the
arithmetic average over the member axis of the per-member predictions returned
by `predict(x, factored=True)`, and a variance equal to the mean squared
deviation of each member's prediction from that same average, per output
dimension (population variance), both of shape `[B, D]`. -/
theorem predict2d_aggregation_law {K B D : ℕ} (hK : 1 ≤ K) (hB : 1 ≤ B)
    (fac : Fin K → Fin B → Fin D → ℚ) :
    (predict2dAggregate fac).1 = specEnsembleMean (predict2dFactored fac) ∧
    (predict2dAggregate fac).2 = specMeanSqDeviation (predict2dFactored fac) := by
  refine ⟨sy_pred_mean2d_eq_specEnsembleMean fac, ?_⟩
  funext b d
  simp only [predict2dAggregate, predict2dFactored, sy_pred_var2d,
    specMeanSqDeviation, sy_pred_mean2d_eq_specEnsembleMean, one_div,
    inv_mul_eq_div]

/-- A concrete constant factored prediction tensor, for witnesses. -/
def facConst3 : Fin 1 → Fin 1 → Fin 1 → ℚ :=
  fun _ _ _ => 3

/-- Witness for C1 at `K = B = D = 1` with the constant prediction `3`. -/
theorem predict2d_aggregation_law_witness :
    (predict2dAggregate facConst3).1 = specEnsembleMean (predict2dFactored facConst3) ∧
    (predict2dAggregate facConst3).2 = specMeanSqDeviation (predict2dFactored facConst3) :=
  predict2d_aggregation_law (le_refl 1) (le_refl 1) facConst3

/-! ### Training loss (`NN._compile_losses` lines 383-385, `NN.finalize`
lines 170-174)

`_compile_losses(inputs, targets)` first computes `mean =
self._compile_outputs(inputs)` (the per-member network outputs); the loss
formula is defined here over those outputs `pred` directly. -/

/-- `NN._compile_losses` (lines 383-385):
`tf.reduce_mean(tf.reduce_mean(tf.square(mean - targets) / 2, axis=-1),
axis=-1)` — per member, the mean over the output dimension and then over the
batch dimension of HALF the squared error. -/
def compile_losses {K B D : ℕ} (pred targ : Fin K → Fin B → Fin D → ℚ) :
    Fin K → ℚ :=
  fun k => (∑ b, (∑ d, (pred k b d - targ k b d) ^ 2 / 2) / (D : ℚ)) / (B : ℚ)

/-- `NN.finalize` lines 170-171: `train_loss =
tf.reduce_sum(self._compile_losses(...))` followed by
`train_loss += tf.add_n(self.decays)`. -/
def train_loss {K B D : ℕ} (pred targ : Fin K → Fin B → Fin D → ℚ)
    (decays : List ℚ) : ℚ :=
  (∑ k, compile_losses pred targ k) + decays.sum

/-- The training loss as claim C4 states it: per member, the mean of the
squared differences (no factor 1/2) over the output and batch dimensions,
summed across members, plus the total decay penalty. -/
def claimC4_loss {K B D : ℕ} (pred targ : Fin K → Fin B → Fin D → ℚ)
    (decays : List ℚ) : ℚ :=
  (∑ k, (∑ b, (∑ d, (pred k b d - targ k b d) ^ 2) / (D : ℚ)) / (B : ℚ)) +
    decays.sum

/-- Counterexample to C4 as stated: with one member, one batch row, one output
dimension, prediction `2`, target `0` and no decays, the loss actually
minimized is `2` (half squared error), while the claim's formula gives `4`. -/
theorem train_loss_ne_claimC4_loss :
    train_loss (fun (_ : Fin 1) (_ : Fin 1) (_ : Fin 1) => (2 : ℚ))
        (fun _ _ _ => 0) [] = 2 ∧
    claimC4_loss (fun (_ : Fin 1) (_ : Fin 1) (_ : Fin 1) => (2 : ℚ))
        (fun _ _ _ => 0) [] = 4 ∧
    train_loss (fun (_ : Fin 1) (_ : Fin 1) (_ : Fin 1) => (2 : ℚ))
        (fun _ _ _ => 0) [] ≠
      claimC4_loss (fun (_ : Fin 1) (_ : Fin 1) (_ : Fin 1) => (2 : ℚ))
        (fun _ _ _ => 0) [] := by
  norm_num [train_loss, compile_losses, claimC4_loss]

/-- The training loss as amended: per member, the mean over the batch and
output dimensions of HALF the squared prediction-target differences, summed
across members, plus the total weight-decay penalty. -/
def claimC4_amended_loss {K B D : ℕ} (pred targ : Fin K → Fin B → Fin D → ℚ)
    (decays : List ℚ) : ℚ :=
  (∑ k, (∑ b, ∑ d, (pred k b d - targ k b d) ^ 2 / 2) / ((B : ℚ) * (D : ℚ))) +
    decays.sum

/-- C4 (amended): the training loss minimized by each optimizer step equals,
for each member, the mean over the batch and output dimensions of half the
squared prediction-target differences, summed across all members, plus the
total weight-decay penalty summed over all layers. -/
theorem train_loss_formula {K B D : ℕ} (pred targ : Fin K → Fin B → Fin D → ℚ)
    (decays : List ℚ) :
    train_loss pred targ decays = claimC4_amended_loss pred targ decays := by
  rw [train_loss, claimC4_amended_loss]
  congr 1
  refine Finset.sum_congr rfl fun k _ => ?_
  rw [compile_losses, ← Finset.sum_div, div_div, mul_comm (D : ℚ) (B : ℚ)]

/-! ### Model state (`NN.__init__` lines 38-75, `NN.add` lines 98-117,
`NN.pop` lines 119-131, `NN.finalize` guards lines 142-145 and 213) -/

/-- Modelled from the spec: the `FC` layer template (`dmbrl.modeling.layers.FC`),
whose source is not under `src/`. Fields per spec section 4.2: deferrable
`input_dim`, mandatory `output_dim`, nullable `activation` and `weight_decay`,
and the `ensemble_size` propagated from the model. Before `construct_vars` a
layer is a pure template, which is all `add`/`pop` manipulate. -/
structure FCLayer where
  input_dim : Option ℕ
  output_dim : ℕ
  activation : Option String
  weight_decay : Option ℚ
  ensemble_size : Option ℕ
deriving DecidableEq

def FCLayer.get_input_dim (l : FCLayer) : Option ℕ :=
  l.input_dim

def FCLayer.get_output_dim (l : FCLayer) : ℕ :=
  l.output_dim

def FCLayer.set_input_dim (l : FCLayer) (d : ℕ) : FCLayer :=
  { l with input_dim := some d }

def FCLayer.set_ensemble_size (l : FCLayer) (n : ℕ) : FCLayer :=
  { l with ensemble_size := some n }

/-- Modelled from the spec (section 4.2): `copy()` produces an independent
unconstructed clone preserving dimensions/activation/decay. Layers handled by
`add`/`pop` are unconstructed templates, so the clone is the value itself. -/
def FCLayer.copy (l : FCLayer) : FCLayer :=
  l

/-- Modelled from the spec: `TensorStandardScaler` (section 4.1), whose source
is not under `src/`. Its numeric state (per-column mean and epsilon-floored
std, the latter needing real square roots) is used by no claim; what the claims
constrain is which rows `fit` receives, so the state records the fit data. -/
structure ScalerSt (α : Type) where
  fitData : List α

/-- The instance variables of class `NN` (set in `__init__`, lines 38-75) that
the claims depend on. The prediction graph handles are `None` until `finalize`
builds them (lines 58-61 initialize them to `None`); they are modelled as
`Option Unit` because the claims about the fields themselves concern only
whether they are set — the numeric content of the corresponding tensors is
modelled separately (`sy_pred_mean2d`, `sy_pred_var2d`, `train_loss` above).
Input rows are modelled as `List ℚ`. -/
structure NNState where
  name : String
  num_nets : ℕ
  finalized : Bool
  model_loaded : Bool
  load_model_values : Bool
  layers : List FCLayer
  scaler : Option (ScalerSt (List ℚ))
  sy_pred_mean2d_fac : Option Unit
  sy_pred_mean2d : Option Unit
  sy_pred_var2d : Option Unit
  sy_pred_mean3d_fac : Option Unit

/-- The construction parameters of `NN.__init__` that the claims depend on. -/
structure InitParams where
  name : String
  model_dir : Option String
  load_model : Bool
  num_networks : Option ℕ

/-- `NN.__init__` (lines 38-75): requires a `name`; in load mode requires a
model directory; sets `num_nets` from the `num_networks` parameter (default 1)
in BOTH branches — the structure-loading line that derived it from the archive
(line 67) is commented out in the source — and `model_loaded := False` in both
branches, with `load_model_values` recording load mode. -/
def initNN (p : InitParams) : Except String NNState :=
  if p.load_model then
    if p.model_dir.isNone then
      .error "Cannot load model without providing model directory."
    else
      .ok { name := p.name, num_nets := p.num_networks.getD 1,
            finalized := false, model_loaded := false, load_model_values := true,
            layers := [], scaler := none, sy_pred_mean2d_fac := none,
            sy_pred_mean2d := none, sy_pred_var2d := none,
            sy_pred_mean3d_fac := none }
  else
    .ok { name := p.name, num_nets := p.num_networks.getD 1,
          finalized := false, model_loaded := false, load_model_values := false,
          layers := [], scaler := none, sy_pred_mean2d_fac := none,
          sy_pred_mean2d := none, sy_pred_var2d := none,
          sy_pred_mean3d_fac := none }

/-- C3: the code contradicts its own docstring (lines 29-30: `num_networks ...
Ignored if model is being loaded`). Two load-mode constructions differing only
in `num_networks` yield models with different ensemble sizes, so the member
count of a loaded model DOES depend on the `num_networks` parameter. -/
theorem loaded_num_nets_depends_on_param :
    ∃ s5 s2 : NNState,
      initNN { name := "m", model_dir := some "m.npz", load_model := true,
               num_networks := some 5 } = .ok s5 ∧
      initNN { name := "m", model_dir := some "m.npz", load_model := true,
               num_networks := some 2 } = .ok s2 ∧
      s5.num_nets = 5 ∧ s2.num_nets = 2 ∧ s5.num_nets ≠ s2.num_nets := by
  refine ⟨_, _, rfl, rfl, rfl, rfl, by decide⟩

/-- The layer value appended by `NN.add` (lines 114-117): ensemble size set
from the model, input dimension chained from the previous layer's output
dimension when one exists, then copied. -/
def addedLayer (m : NNState) (layer : FCLayer) : FCLayer :=
  (match m.layers.getLast? with
   | some prev =>
       (layer.set_ensemble_size m.num_nets).set_input_dim prev.get_output_dim
   | none => layer.set_ensemble_size m.num_nets).copy

/-- `NN.add` (lines 98-117). -/
def NNState.add (m : NNState) (layer : FCLayer) : Except String NNState :=
  if m.finalized then
    .error "Cannot modify network structure after finalizing."
  else if m.layers.length = 0 ∧ layer.get_input_dim = none then
    .error "Must set input dimension for the first layer."
  else if m.model_loaded then
    .error "Cannot add layers to a loaded model."
  else
    .ok { m with layers := m.layers ++ [addedLayer m layer] }

/-- `NN.pop` (lines 119-131): removes and returns the last layer. -/
def NNState.pop (m : NNState) : Except String (FCLayer × NNState) :=
  if m.layers.length = 0 then
    .error "Network is empty."
  else if m.finalized then
    .error "Cannot modify network structure after finalizing."
  else if m.model_loaded then
    .error "Cannot remove layers from a loaded model."
  else
    match m.layers.getLast? with
    | some l => .ok (l, { m with layers := m.layers.dropLast })
    | none => .error "Network is empty."

/-- C9: on a non-finalized, non-loaded model, a valid `add` followed
immediately by `pop` returns a state equal to the original — the layer list
and every other piece of model state (hence any derived dimension state) are
unchanged from before the `add`. -/
theorem add_pop_roundtrip (m : NNState) (layer : FCLayer)
    (hf : m.finalized = false) (hl : m.model_loaded = false)
    (hd : m.layers = [] → layer.get_input_dim ≠ none) :
    (m.add layer).bind NNState.pop = .ok (addedLayer m layer, m) := by
  have hcond : ¬(m.layers.length = 0 ∧ layer.get_input_dim = none) := by
    rintro ⟨h0, hnone⟩
    exact hd (List.length_eq_zero.mp h0) hnone
  rw [NNState.add, if_neg (by simp [hf]), if_neg hcond, if_neg (by simp [hl])]
  show NNState.pop _ = _
  rw [NNState.pop]
  rw [if_neg (by simp), if_neg (by simp [hf]), if_neg (by simp [hl])]
  simp

/-- A valid un-finalized single-layer model, for witnesses. -/
def sampleBuildingState : NNState :=
  { name := "m", num_nets := 1, finalized := false, model_loaded := false,
    load_model_values := false,
    layers := [{ input_dim := some 3, output_dim := 2, activation := none,
                 weight_decay := none, ensemble_size := some 1 }],
    scaler := none, sy_pred_mean2d_fac := none, sy_pred_mean2d := none,
    sy_pred_var2d := none, sy_pred_mean3d_fac := none }

/-- A hidden layer template with no input dimension set, for witnesses. -/
def sampleHiddenLayer : FCLayer :=
  { input_dim := none, output_dim := 4, activation := some "swish",
    weight_decay := some (1 / 10000), ensemble_size := none }

/-- Witness for C9: adding a hidden layer to the one-layer sample model and
popping it restores the model state exactly. -/
theorem add_pop_roundtrip_witness :
    (sampleBuildingState.add sampleHiddenLayer).bind NNState.pop =
      .ok (addedLayer sampleBuildingState sampleHiddenLayer, sampleBuildingState) :=
  add_pop_roundtrip sampleBuildingState sampleHiddenLayer rfl rfl
    (by intro h; simp [sampleBuildingState] at h)

/-- `NN.finalize` at the level of its guards and state effect (lines 133-145
and 213, with the graph construction of lines 147-211 abstracted to setting
the scaler and the prediction handles): the two guards are checked before any
graph construction, so a failing call raises before any mutation — in this
pure embedding an error produces no new state. -/
def NNState.finalize (m : NNState) : Except String NNState :=
  if m.layers.length = 0 then
    .error "Cannot finalize an empty network."
  else if m.finalized then
    .error "Can only finalize a network once."
  else
    .ok { m with
          finalized := true, scaler := some (ScalerSt.mk []),
          sy_pred_mean2d_fac := some (), sy_pred_mean2d := some (),
          sy_pred_var2d := some (), sy_pred_mean3d_fac := some () }

/-- C8: `finalize` on an already-finalized model always fails (whichever guard
fires), and `finalize` on a model with an empty layer list always fails; the
raise happens before any graph construction, so existing graph state is
untouched (in this pure embedding, no new state is produced). -/
theorem finalize_guard (m : NNState) (h : m.finalized = true ∨ m.layers = []) :
    ∃ e, m.finalize = .error e := by
  rcases h with h | h
  · by_cases h0 : m.layers.length = 0
    · exact ⟨_, by rw [NNState.finalize, if_pos h0]⟩
    · exact ⟨_, by rw [NNState.finalize, if_neg h0, if_pos h]⟩
  · exact ⟨_, by rw [NNState.finalize, if_pos (by simp [h])]⟩

/-- An already-finalized single-layer model, for witnesses. -/
def sampleFinalizedState : NNState :=
  { sampleBuildingState with
    finalized := true, scaler := some (ScalerSt.mk []),
    sy_pred_mean2d_fac := some (), sy_pred_mean2d := some (),
    sy_pred_var2d := some (), sy_pred_mean3d_fac := some () }

/-- Witness for C8: re-finalizing the finalized sample model fails. -/
theorem finalize_guard_witness : ∃ e, sampleFinalizedState.finalize = .error e :=
  finalize_guard sampleFinalizedState (Or.inl rfl)

/-! ### Training (`NN.train`, lines 219-250)

Randomness is explicit: `perm` models `np.random.permutation(N)` (line 229,
guaranteed a permutation of `0..N-1`), `draw k j` models the bootstrap draw
`np.random.randint(Ntrain, size=[num_nets, Ntrain])` (line 238; numpy
guarantees values in `[0, Ntrain)`, modelled by reducing mod `Ntrain`, and
raises `ValueError: low >= high` when `Ntrain = 0`), and `sigs e k` models
epoch `e`'s argsort-of-uniform row permutation for member `k` in
`shuffle_rows` (lines 223-225; `np.argsort` always returns a permutation of
`0..len-1`). -/

/-- Python `int()` truncation toward zero, on a rational. -/
def pyInt (q : ℚ) : ℤ :=
  if 0 ≤ q then ⌊q⌋ else -⌊-q⌋

/-- `num_holdout = min(int(inputs.shape[0] * holdout_ratio), max_logging)`
(`NN.train`, line 228). -/
def numHoldout (N : ℕ) (r : ℚ) (max_logging : ℕ) : ℕ :=
  min (pyInt ((N : ℚ) * r)).toNat max_logging

/-- The retained training rows, as indices into the original input array:
`permutation[num_holdout:]` (`NN.train`, line 230). -/
def retainedIdxOf (N : ℕ) (r : ℚ) (max_logging : ℕ) (perm : List ℕ) : List ℕ :=
  perm.drop (numHoldout N r max_logging)

/-- The held-out rows, as indices into the original input array:
`permutation[:num_holdout]` (`NN.train`, line 230). -/
def holdoutIdxOf (N : ℕ) (r : ℚ) (max_logging : ℕ) (perm : List ℕ) : List ℕ :=
  perm.take (numHoldout N r max_logging)

/-- `int(np.ceil(n / b))` for natural `n` and `b ≥ 1` (`NN.train`, line 244). -/
def numBatches (n b : ℕ) : ℕ :=
  (n + b - 1) / b

/-- `shuffle_rows` (`NN.train`, lines 223-225): row `k` of the index matrix is
reordered by its own permutation `sig k` — position `j` of the new row holds
position `sig k j` of the old row. -/
def shuffleRows (rows : ℕ → List ℕ) (sig : ℕ → ℕ → ℕ) : ℕ → List ℕ :=
  fun k => (List.range (rows k).length).map fun j => (rows k).getD (sig k j) 0

/-- The index matrix at the start of epoch `e`: the bootstrap draw `idxs0`,
reshuffled once at the end of every completed epoch
(`idxs = shuffle_rows(idxs)`, line 250). -/
def idxsAtEpoch (idxs0 : ℕ → List ℕ) (sigs : ℕ → ℕ → ℕ → ℕ) : ℕ → ℕ → List ℕ
  | 0 => idxs0
  | e + 1 => shuffleRows (idxsAtEpoch idxs0 sigs e) (sigs e)

/-- The batch of optimizer step `i` within an epoch (`NN.train`, line 245):
`idxs[:, batch_num*batch_size : (batch_num+1)*batch_size]` — member `k`'s
consecutive chunk of `batch_size` positions into the retained rows. -/
def stepBatch (idxs : ℕ → List ℕ) (batch_size i : ℕ) : ℕ → List ℕ :=
  fun k => ((idxs k).drop (i * batch_size)).take batch_size

/-- The optimizer steps of one epoch, in execution order (`NN.train`, lines
244-249): one `sess.run(self.train_op, ...)` per chunk, with every member's
batch fed in that same single step. -/
def epochSteps (Ntrain batch_size : ℕ) (idxs : ℕ → List ℕ) :
    List (ℕ → List ℕ) :=
  (List.range (numBatches Ntrain batch_size)).map (stepBatch idxs batch_size)

/-- Everything observable about a successful `NN.train` call that the claims
constrain. `steps` lists every optimizer step in execution order; an element
maps each member `k` to the positions (into the retained rows) of that
member's batch for that single shared step. -/
structure TrainTrace (α : Type) where
  retainedIdx : List ℕ
  holdoutIdx : List ℕ
  scalerFit : ScalerSt α
  tiledHoldout : ℕ → List α
  idxs0 : ℕ → List ℕ
  stepsOfEpoch : ℕ → List (ℕ → List ℕ)
  steps : List (ℕ → List ℕ)

/-- The bootstrap index matrix `idxs = np.random.randint(Ntrain,
size=[num_nets, Ntrain])` (`NN.train`, line 238): row `k` holds member `k`'s
independent sample of `Ntrain` indices into the retained rows; numpy
guarantees each value lies in `[0, Ntrain)`, modelled by reducing the supplied
draw mod `Ntrain`. -/
def bootstrapIdxs (draw : ℕ → ℕ → ℕ) (Ntrain : ℕ) : ℕ → List ℕ :=
  fun k => (List.range Ntrain).map fun j => draw k j % Ntrain

/-- The observable outcome of a `NN.train` call that gets past the failure
points (`NN.train`, lines 227-250). -/
def trainTraceOf {α : Type} (inputs : ℕ → α) (N batch_size epochs : ℕ)
    (r : ℚ) (max_logging : ℕ) (perm : List ℕ) (draw : ℕ → ℕ → ℕ)
    (sigs : ℕ → ℕ → ℕ → ℕ) : TrainTrace α :=
  { retainedIdx := retainedIdxOf N r max_logging perm
    holdoutIdx := holdoutIdxOf N r max_logging perm
    scalerFit := ScalerSt.mk ((retainedIdxOf N r max_logging perm).map inputs)
    tiledHoldout := fun _ => (holdoutIdxOf N r max_logging perm).map inputs
    idxs0 := bootstrapIdxs draw (retainedIdxOf N r max_logging perm).length
    stepsOfEpoch := fun e =>
      if e < epochs then
        epochSteps (retainedIdxOf N r max_logging perm).length batch_size
          (idxsAtEpoch
            (bootstrapIdxs draw (retainedIdxOf N r max_logging perm).length)
            sigs e)
      else []
    steps := (List.range epochs).flatMap fun e =>
      epochSteps (retainedIdxOf N r max_logging perm).length batch_size
        (idxsAtEpoch
          (bootstrapIdxs draw (retainedIdxOf N r max_logging perm).length)
          sigs e) }

/-- `NN.train` (lines 219-250). Failures, in program order: `self.scaler.fit`
on the `None` scaler of a non-finalized model raises `AttributeError` (line
236); the bootstrap draw over an empty retained set raises `ValueError` (line
238); `np.ceil(Ntrain / 0)` raises `ZeroDivisionError` inside the first epoch
(line 244), hence only when `epochs ≥ 1`. The progress-bar loss reports of
lines 251-278 read state but mutate nothing and are omitted. The epoch loop
(lines 243-250) runs for the full requested `epochs` count with no
convergence-based exit. -/
def trainRun {α : Type} (scaler : Option (ScalerSt α)) (inputs : ℕ → α)
    (N batch_size epochs : ℕ) (r : ℚ) (max_logging : ℕ)
    (perm : List ℕ) (draw : ℕ → ℕ → ℕ) (sigs : ℕ → ℕ → ℕ → ℕ) :
    Except String (TrainTrace α) :=
  match scaler with
  | none => .error "AttributeError: NoneType object has no attribute fit"
  | some _ =>
    if (retainedIdxOf N r max_logging perm).length = 0 then
      .error "ValueError: low >= high"
    else if epochs ≠ 0 ∧ batch_size = 0 then
      .error "ZeroDivisionError: division by zero"
    else
      .ok (trainTraceOf inputs N batch_size epochs r max_logging perm draw sigs)

theorem trainRun_some_eq {α : Type} (sc : ScalerSt α) (inputs : ℕ → α)
    (N batch_size epochs : ℕ) (r : ℚ) (max_logging : ℕ)
    (perm : List ℕ) (draw : ℕ → ℕ → ℕ) (sigs : ℕ → ℕ → ℕ → ℕ) :
    trainRun (some sc) inputs N batch_size epochs r max_logging perm draw sigs =
      if (retainedIdxOf N r max_logging perm).length = 0 then
        .error "ValueError: low >= high"
      else if epochs ≠ 0 ∧ batch_size = 0 then
        .error "ZeroDivisionError: division by zero"
      else
        .ok (trainTraceOf inputs N batch_size epochs r max_logging perm draw
          sigs) :=
  rfl

theorem map_getD_range (xs : List ℕ) :
    (List.range xs.length).map (fun i => xs.getD i 0) = xs := by
  apply List.ext_getElem
  · simp
  · intro i h1 h2
    simp only [List.getElem_map, List.getElem_range]
    rw [List.getD_eq_getElem _ _ h2]

theorem shuffleRows_length (rows : ℕ → List ℕ) (sig : ℕ → ℕ → ℕ) (k : ℕ) :
    (shuffleRows rows sig k).length = (rows k).length := by
  simp [shuffleRows]

theorem shuffleRows_perm (rows : ℕ → List ℕ) (sig : ℕ → ℕ → ℕ) (k : ℕ)
    (hsig : ((List.range (rows k).length).map (sig k)).Perm
      (List.range (rows k).length)) :
    (shuffleRows rows sig k).Perm (rows k) := by
  have hrw : shuffleRows rows sig k =
      ((List.range (rows k).length).map (sig k)).map fun i => (rows k).getD i 0 := by
    rw [shuffleRows, List.map_map]; rfl
  rw [hrw]
  have := hsig.map fun i => (rows k).getD i 0
  rwa [map_getD_range] at this

theorem idxsAtEpoch_length (idxs0 : ℕ → List ℕ) (sigs : ℕ → ℕ → ℕ → ℕ)
    (e k : ℕ) : (idxsAtEpoch idxs0 sigs e k).length = (idxs0 k).length := by
  induction e with
  | zero => rfl
  | succ e ih => rw [idxsAtEpoch, shuffleRows_length, ih]

theorem idxsAtEpoch_perm (idxs0 : ℕ → List ℕ) (sigs : ℕ → ℕ → ℕ → ℕ)
    (hsig : ∀ e k, ((List.range (idxs0 k).length).map (sigs e k)).Perm
      (List.range (idxs0 k).length)) (e k : ℕ) :
    (idxsAtEpoch idxs0 sigs e k).Perm (idxs0 k) := by
  induction e with
  | zero => exact List.Perm.refl _
  | succ e ih =>
    refine List.Perm.trans ?_ ih
    refine shuffleRows_perm _ _ _ ?_
    rw [idxsAtEpoch_length]
    exact hsig e k

theorem idxsAtEpoch_entries_lt (idxs0 : ℕ → List ℕ) (sigs : ℕ → ℕ → ℕ → ℕ)
    (L : ℕ) (hL : 0 < L) (h0 : ∀ k x, x ∈ idxs0 k → x < L) :
    ∀ e k x, x ∈ idxsAtEpoch idxs0 sigs e k → x < L := by
  intro e
  induction e with
  | zero => exact h0
  | succ e ih =>
    intro k x hx
    rw [idxsAtEpoch, shuffleRows] at hx
    obtain ⟨j, _, rfl⟩ := List.mem_map.mp hx
    by_cases hj : sigs e k j < (idxsAtEpoch idxs0 sigs e k).length
    · rw [List.getD_eq_getElem _ _ hj]
      exact ih k _ (List.getElem_mem _)
    · rw [List.getD_eq_default _ _ (le_of_not_lt hj)]
      exact hL

theorem numBatches_pos_split (n b : ℕ) (hb : 1 ≤ b) (hn : 1 ≤ n) :
    numBatches n b = numBatches (n - b) b + 1 := by
  unfold numBatches
  rcases le_or_lt n b with hle | hlt
  · have h1 : (n + b - 1) / b = 1 := by
      apply Nat.div_eq_of_lt_le <;> omega
    have h2 : (n - b + b - 1) / b = 0 := Nat.div_eq_of_lt (by omega)
    omega
  · have h3 : n + b - 1 = (n - b + b - 1) + b := by omega
    rw [h3, Nat.add_div_right _ (by omega)]

theorem join_chunks (b : ℕ) (hb : 1 ≤ b) :
    ∀ (n : ℕ) (xs : List ℕ), xs.length = n →
      ((List.range (numBatches n b)).map
        (fun i => (xs.drop (i * b)).take b)).flatten = xs := by
  intro n
  induction n using Nat.strong_induction_on with
  | _ n ih =>
    intro xs hlen
    rcases Nat.eq_zero_or_pos n with h0 | hpos
    · subst h0
      obtain rfl : xs = [] := List.length_eq_zero.mp hlen
      have hnb : numBatches 0 b = 0 := by
        unfold numBatches
        exact Nat.div_eq_of_lt (by omega)
      simp [hnb]
    · rw [numBatches_pos_split n b hb hpos, List.range_succ_eq_map,
        List.map_cons, List.map_map]
      have hhead : (xs.drop (0 * b)).take b = xs.take b := by
        rw [Nat.zero_mul, List.drop_zero]
      have htail : ∀ i : ℕ,
          ((fun i => (xs.drop (i * b)).take b) ∘ Nat.succ) i =
            (((xs.drop b).drop (i * b)).take b) := by
        intro i
        have : Nat.succ i * b = i * b + b := Nat.succ_mul i b
        simp only [Function.comp_apply, this, List.drop_drop]
        rw [Nat.add_comm (i * b) b]
      rw [List.map_congr_left fun i _ => htail i]
      have hrec := ih (n - b) (by omega) (xs.drop b)
        (by rw [List.length_drop, hlen])
      rw [hhead, List.flatten_cons, hrec]
      exact List.take_append_drop b xs

/-! ### Prediction dispatch (`NN.predict`, lines 280-319) -/

/-- `self.sess.run(fetch, ...)` at the granularity the claims need: fetching a
graph handle that is still `None` — as every prediction handle is before
`finalize` (lines 58-61) — raises `TypeError` synchronously. -/
def sessRun (fetch : Option Unit) : Except String Unit :=
  match fetch with
  | none => .error "TypeError: Fetch argument None has invalid type"
  | some v => .ok v

/-- `NN.predict` dispatch (lines 302-319): rank-2 input with `factored=True`
fetches `sy_pred_mean2d_fac` and returns `(mean, None)`; rank-2 with
`factored=False` fetches the pair `(sy_pred_mean2d, sy_pred_var2d)`; any other
rank fetches `sy_pred_mean3d_fac` and returns `(mean, None)`. The numeric
content of the fetched tensors is modelled separately (`predict2dFactored`,
`predict2dAggregate`). -/
def NNState.predict (m : NNState) (rank2 factored : Bool) :
    Except String (Unit × Option Unit) :=
  if rank2 then
    if factored then
      (sessRun m.sy_pred_mean2d_fac).map fun v => (v, none)
    else do
      let a ← sessRun m.sy_pred_mean2d
      let b ← sessRun m.sy_pred_var2d
      .ok (a, some b)
  else
    (sessRun m.sy_pred_mean3d_fac).map fun v => (v, none)

/-- C5: on a model that has not been finalized — its scaler and all prediction
graph handles are still `None`, exactly as `__init__` leaves them (and the
final conjunct proves `__init__` always produces such a state) — `train` fails
synchronously inside the call (`self.scaler.fit` on `None`, line 236), and
`predict` fails synchronously inside the call for every input rank and
`factored` flag (`sess.run` on a `None` fetch); neither failure is deferred to
later execution. -/
theorem unfinalized_train_predict_fail (m : NNState)
    (hs : m.scaler = none) (h1 : m.sy_pred_mean2d_fac = none)
    (h2 : m.sy_pred_mean2d = none) (h3 : m.sy_pred_var2d = none)
    (h4 : m.sy_pred_mean3d_fac = none)
    (inputs : ℕ → List ℚ) (N B E maxlog : ℕ) (r : ℚ)
    (perm : List ℕ) (draw : ℕ → ℕ → ℕ) (sigs : ℕ → ℕ → ℕ → ℕ) :
    (∃ e, trainRun m.scaler inputs N B E r maxlog perm draw sigs = .error e) ∧
    (∀ rank2 factored : Bool, ∃ e, m.predict rank2 factored = .error e) ∧
    (∀ p s, initNN p = .ok s →
      s.finalized = false ∧ s.scaler = none ∧ s.sy_pred_mean2d_fac = none ∧
      s.sy_pred_mean2d = none ∧ s.sy_pred_var2d = none ∧
      s.sy_pred_mean3d_fac = none) := by
  refine ⟨⟨"AttributeError: NoneType object has no attribute fit",
    by rw [hs]; rfl⟩, ?_, ?_⟩
  · intro rank2 factored
    cases rank2 with
    | false =>
      refine ⟨"TypeError: Fetch argument None has invalid type", ?_⟩
      show (sessRun m.sy_pred_mean3d_fac).map (fun v => (v, none)) = _
      rw [h4]; rfl
    | true =>
      cases factored with
      | false =>
        refine ⟨"TypeError: Fetch argument None has invalid type", ?_⟩
        show (do
          let a ← sessRun m.sy_pred_mean2d
          let b ← sessRun m.sy_pred_var2d
          (.ok (a, some b) : Except String (Unit × Option Unit))) = _
        rw [h2]; rfl
      | true =>
        refine ⟨"TypeError: Fetch argument None has invalid type", ?_⟩
        show (sessRun m.sy_pred_mean2d_fac).map (fun v => (v, none)) = _
        rw [h1]; rfl
  · intro p s h
    rw [initNN] at h
    by_cases hl : p.load_model = true
    · rw [if_pos hl] at h
      by_cases hdir : p.model_dir.isNone = true
      · rw [if_pos hdir] at h
        exact absurd h (by simp)
      · rw [if_neg hdir] at h
        cases h
        exact ⟨rfl, rfl, rfl, rfl, rfl, rfl⟩
    · rw [if_neg hl] at h
      cases h
      exact ⟨rfl, rfl, rfl, rfl, rfl, rfl⟩

/-- Witness for C5 on the un-finalized sample model. -/
theorem unfinalized_train_predict_fail_witness :
    (∃ e, trainRun sampleBuildingState.scaler (fun _ => ([] : List ℚ))
      3 32 100 0 5000 [0, 1, 2] (fun _ _ => 0) (fun _ _ _ => 0) = .error e) ∧
    (∀ rank2 factored : Bool,
      ∃ e, sampleBuildingState.predict rank2 factored = .error e) ∧
    (∀ p s, initNN p = .ok s →
      s.finalized = false ∧ s.scaler = none ∧ s.sy_pred_mean2d_fac = none ∧
      s.sy_pred_mean2d = none ∧ s.sy_pred_var2d = none ∧
      s.sy_pred_mean3d_fac = none) :=
  unfinalized_train_predict_fail sampleBuildingState rfl rfl rfl rfl rfl
    (fun _ => ([] : List ℚ)) 3 32 100 5000 0 [0, 1, 2]
    (fun _ _ => 0) (fun _ _ _ => 0)

/-- For a nonnegative ratio, Python's `int()` truncation agrees with the
spec's `floor`, so `num_holdout` is `min(floor(r*N), max_logging)`. -/
theorem numHoldout_eq (N maxlog : ℕ) (r : ℚ) (hr : 0 ≤ r) :
    numHoldout N r maxlog = min ⌊r * (N : ℚ)⌋₊ maxlog := by
  rw [numHoldout, pyInt, if_pos (mul_nonneg (Nat.cast_nonneg N) hr),
    Int.floor_toNat, mul_comm (N : ℚ) r]

/-- C10: with the scaler present (finalized model), if the holdout carving
retains no rows — the claim's condition `min(floor(r*N), max_eval_points) = N`,
with `r ≥ 0` and `perm` a length-`N` permutation — then `train` fails exactly
at the bootstrap index draw over the empty retained set (`np.random.randint`
with `high = 0` raises `ValueError: low >= high`); conversely a `train` call
that reaches batch construction (returns a trace) has at least one retained
row. -/
theorem train_empty_retained_fails {α : Type} (sc : ScalerSt α)
    (inputs : ℕ → α) (N B E maxlog : ℕ) (r : ℚ) (perm : List ℕ)
    (draw : ℕ → ℕ → ℕ) (sigs : ℕ → ℕ → ℕ → ℕ)
    (hr : 0 ≤ r) (hperm : perm.length = N) :
    (min ⌊r * (N : ℚ)⌋₊ maxlog = N →
      trainRun (some sc) inputs N B E r maxlog perm draw sigs =
        .error "ValueError: low >= high") ∧
    (∀ t, trainRun (some sc) inputs N B E r maxlog perm draw sigs = .ok t →
      1 ≤ t.retainedIdx.length) := by
  have hnum : numHoldout N r maxlog = min ⌊r * (N : ℚ)⌋₊ maxlog :=
    numHoldout_eq N maxlog r hr
  constructor
  · intro hcond
    have hret : (retainedIdxOf N r maxlog perm).length = 0 := by
      rw [retainedIdxOf, List.length_drop, hperm, hnum, hcond, Nat.sub_self]
    rw [trainRun_some_eq, if_pos hret]
  · intro t ht
    rw [trainRun_some_eq] at ht
    by_cases h0 : (retainedIdxOf N r maxlog perm).length = 0
    · rw [if_pos h0] at ht
      exact absurd ht (by simp)
    · by_cases hz : E ≠ 0 ∧ B = 0
      · rw [if_neg h0, if_pos hz] at ht
        exact absurd ht (by simp)
      · rw [if_neg h0, if_neg hz] at ht
        cases ht
        exact Nat.one_le_iff_ne_zero.mpr h0

/-- Witness for C10 at `N = 1`, `r = 1`, `max_logging = 5000`, `perm = [0]`:
the carving condition holds and the call fails at the bootstrap draw. -/
theorem train_empty_retained_fails_witness :
    (min ⌊(1 : ℚ) * ((1 : ℕ) : ℚ)⌋₊ 5000 = 1 →
      trainRun (some (ScalerSt.mk ([] : List (List ℚ)))) (fun _ => ([] : List ℚ))
        1 32 100 1 5000 [0] (fun _ _ => 0) (fun _ _ _ => 0) =
        .error "ValueError: low >= high") ∧
    (∀ t, trainRun (some (ScalerSt.mk ([] : List (List ℚ))))
        (fun _ => ([] : List ℚ)) 1 32 100 1 5000 [0]
        (fun _ _ => 0) (fun _ _ _ => 0) = .ok t →
      1 ≤ t.retainedIdx.length) :=
  train_empty_retained_fails (ScalerSt.mk ([] : List (List ℚ)))
    (fun _ => ([] : List ℚ)) 1 32 100 5000 1 [0]
    (fun _ _ => 0) (fun _ _ _ => 0) (by norm_num) rfl

theorem bootstrapIdxs_length (draw : ℕ → ℕ → ℕ) (n k : ℕ) :
    (bootstrapIdxs draw n k).length = n := by
  simp [bootstrapIdxs]

theorem bootstrapIdxs_lt (draw : ℕ → ℕ → ℕ) (n : ℕ) (hn : n ≠ 0) :
    ∀ k x, x ∈ bootstrapIdxs draw n k → x < n := by
  intro k x hx
  rw [bootstrapIdxs] at hx
  obtain ⟨j, _, rfl⟩ := List.mem_map.mp hx
  exact Nat.mod_lt _ (Nat.pos_of_ne_zero hn)

theorem stepBatch_entry_mem (idxs : ℕ → List ℕ) (B i k p : ℕ)
    (hp : p ∈ stepBatch idxs B i k) : p ∈ idxs k :=
  List.mem_of_mem_drop (List.mem_of_mem_take hp)

/-- Every position appearing in any optimizer-step batch of the trace is a
valid index into the retained rows. -/
theorem steps_entries_lt (draw : ℕ → ℕ → ℕ) (sigs : ℕ → ℕ → ℕ → ℕ)
    (Ntrain B E : ℕ) (hN : Ntrain ≠ 0) (s : ℕ → List ℕ)
    (hs : s ∈ (List.range E).flatMap fun e =>
      epochSteps Ntrain B (idxsAtEpoch (bootstrapIdxs draw Ntrain) sigs e))
    (k p : ℕ) (hp : p ∈ s k) : p < Ntrain := by
  obtain ⟨e, _, hse⟩ := List.mem_flatMap.mp hs
  obtain ⟨i, _, rfl⟩ := List.mem_map.mp hse
  have hrow : p ∈ idxsAtEpoch (bootstrapIdxs draw Ntrain) sigs e k :=
    stepBatch_entry_mem _ B i k p hp
  exact idxsAtEpoch_entries_lt (bootstrapIdxs draw Ntrain) sigs Ntrain
    (Nat.pos_of_ne_zero hN) (bootstrapIdxs_lt draw Ntrain hN) e k p hrow

/-- Counterexample to C6 as stated: calling `train` on `N = 2` rows with
`holdout_ratio = 2` and `max_logging = 5000` carves `permutation[:4]` out of a
2-element permutation, so only 2 rows are held out, while the claim's formula
`min(floor(r*N), max_eval_points)` gives `4`. -/
theorem holdout_count_counterexample :
    (holdoutIdxOf 2 2 5000 [0, 1]).length = 2 ∧
    min ⌊(2 : ℚ) * ((2 : ℕ) : ℚ)⌋₊ 5000 = 4 ∧
    (holdoutIdxOf 2 2 5000 [0, 1]).length ≠
      min ⌊(2 : ℚ) * ((2 : ℕ) : ℚ)⌋₊ 5000 := by
  have hfloor : ⌊(2 : ℚ) * ((2 : ℕ) : ℚ)⌋₊ = 4 := by
    rw [show ((2 : ℚ) * ((2 : ℕ) : ℚ)) = ((4 : ℕ) : ℚ) by norm_num,
      Nat.floor_natCast]
  have hnh : numHoldout 2 2 5000 = 4 := by
    rw [numHoldout_eq 2 5000 2 (by norm_num),
      show ((2 : ℚ) * ((2 : ℕ) : ℚ)) = ((4 : ℕ) : ℚ) by norm_num,
      Nat.floor_natCast]
    omega
  have hlen : (holdoutIdxOf 2 2 5000 [0, 1]).length = 2 := by
    rw [holdoutIdxOf, hnh]
    decide
  refine ⟨hlen, by rw [hfloor]; omega, ?_⟩
  rw [hlen, hfloor]
  omega

/-- C6 (amended): for every `train` call that yields a trace `t` (`perm` being
the random permutation of the `N` row indices, `r ≥ 0`):
the number of held-out rows equals `min(min(floor(r*N), max_eval_points), N)` —
the carving can never hold out more than the `N` available rows, and below
that cap it is exactly the claimed `min(floor(r*N), max_eval_points)`;
held-out row indices are disjoint from the retained row indices; the Scaler is
fit on exactly the retained rows; every optimizer-step batch of every member
draws its rows from the retained indices only, never from the holdout; and the
holdout set is replicated identically across all ensemble members. -/
theorem holdout_carving {α : Type} (sc : ScalerSt α) (inputs : ℕ → α)
    (N B E maxlog : ℕ) (r : ℚ) (perm : List ℕ)
    (draw : ℕ → ℕ → ℕ) (sigs : ℕ → ℕ → ℕ → ℕ)
    (hr : 0 ≤ r) (hperm : perm.Perm (List.range N)) (t : TrainTrace α)
    (ht : trainRun (some sc) inputs N B E r maxlog perm draw sigs = .ok t) :
    t.holdoutIdx.length = min (min ⌊r * (N : ℚ)⌋₊ maxlog) N ∧
    (∀ x ∈ t.holdoutIdx, x ∉ t.retainedIdx) ∧
    t.scalerFit.fitData = t.retainedIdx.map inputs ∧
    (∀ s ∈ t.steps, ∀ k, ∀ p ∈ s k,
      t.retainedIdx.getD p 0 ∈ t.retainedIdx ∧
      t.retainedIdx.getD p 0 ∉ t.holdoutIdx) ∧
    (∀ k, t.tiledHoldout k = t.holdoutIdx.map inputs) := by
  have hlen : perm.length = N := by
    rw [hperm.length_eq, List.length_range]
  have hnodup : perm.Nodup := hperm.nodup_iff.mpr (List.nodup_range N)
  have hdisj : List.Disjoint (holdoutIdxOf N r maxlog perm)
      (retainedIdxOf N r maxlog perm) := by
    rw [holdoutIdxOf, retainedIdxOf]
    exact List.disjoint_take_drop hnodup (le_refl _)
  rw [trainRun_some_eq] at ht
  by_cases h0 : (retainedIdxOf N r maxlog perm).length = 0
  · rw [if_pos h0] at ht
    exact absurd ht (by simp)
  by_cases hz : E ≠ 0 ∧ B = 0
  · rw [if_neg h0, if_pos hz] at ht
    exact absurd ht (by simp)
  rw [if_neg h0, if_neg hz] at ht
  cases ht
  refine ⟨?_, ?_, rfl, ?_, fun k => rfl⟩
  · show (holdoutIdxOf N r maxlog perm).length = _
    rw [holdoutIdxOf, List.length_take, hlen, numHoldout_eq N maxlog r hr]
  · intro x hx
    exact hdisj hx
  · intro s hs k p hp
    have hplt : p < (retainedIdxOf N r maxlog perm).length :=
      steps_entries_lt draw sigs _ B E h0 s hs k p hp
    have hmem : (retainedIdxOf N r maxlog perm).getD p 0 ∈
        retainedIdxOf N r maxlog perm := by
      rw [List.getD_eq_getElem _ _ hplt]
      exact List.getElem_mem _
    exact ⟨hmem, fun hcontra => hdisj hcontra hmem⟩

/-- Witness for C6 (amended) on a concrete successful call: `N = 2` rows,
`perm = [0, 1]`, ratio `0`, one epoch of batch size 1. -/
theorem holdout_carving_witness :
    (trainTraceOf (fun _ => (0 : ℚ)) 2 1 1 0 5000 [0, 1] (fun _ _ => 0)
        (fun _ _ _ => 0)).holdoutIdx.length =
      min (min ⌊(0 : ℚ) * ((2 : ℕ) : ℚ)⌋₊ 5000) 2 ∧
    (∀ x ∈ (trainTraceOf (fun _ => (0 : ℚ)) 2 1 1 0 5000 [0, 1] (fun _ _ => 0)
        (fun _ _ _ => 0)).holdoutIdx,
      x ∉ (trainTraceOf (fun _ => (0 : ℚ)) 2 1 1 0 5000 [0, 1] (fun _ _ => 0)
        (fun _ _ _ => 0)).retainedIdx) ∧
    (trainTraceOf (fun _ => (0 : ℚ)) 2 1 1 0 5000 [0, 1] (fun _ _ => 0)
        (fun _ _ _ => 0)).scalerFit.fitData =
      (trainTraceOf (fun _ => (0 : ℚ)) 2 1 1 0 5000 [0, 1] (fun _ _ => 0)
        (fun _ _ _ => 0)).retainedIdx.map (fun _ => (0 : ℚ)) ∧
    (∀ s ∈ (trainTraceOf (fun _ => (0 : ℚ)) 2 1 1 0 5000 [0, 1] (fun _ _ => 0)
        (fun _ _ _ => 0)).steps, ∀ k, ∀ p ∈ s k,
      (trainTraceOf (fun _ => (0 : ℚ)) 2 1 1 0 5000 [0, 1] (fun _ _ => 0)
        (fun _ _ _ => 0)).retainedIdx.getD p 0 ∈
        (trainTraceOf (fun _ => (0 : ℚ)) 2 1 1 0 5000 [0, 1] (fun _ _ => 0)
          (fun _ _ _ => 0)).retainedIdx ∧
      (trainTraceOf (fun _ => (0 : ℚ)) 2 1 1 0 5000 [0, 1] (fun _ _ => 0)
        (fun _ _ _ => 0)).retainedIdx.getD p 0 ∉
        (trainTraceOf (fun _ => (0 : ℚ)) 2 1 1 0 5000 [0, 1] (fun _ _ => 0)
          (fun _ _ _ => 0)).holdoutIdx) ∧
    (∀ k, (trainTraceOf (fun _ => (0 : ℚ)) 2 1 1 0 5000 [0, 1] (fun _ _ => 0)
        (fun _ _ _ => 0)).tiledHoldout k =
      (trainTraceOf (fun _ => (0 : ℚ)) 2 1 1 0 5000 [0, 1] (fun _ _ => 0)
        (fun _ _ _ => 0)).holdoutIdx.map (fun _ => (0 : ℚ))) :=
  by
  have h0 : (retainedIdxOf 2 0 5000 [0, 1]).length ≠ 0 := by
    rw [retainedIdxOf, show numHoldout 2 0 5000 = 0 by
      rw [numHoldout_eq 2 5000 0 (le_refl 0),
        show ((0 : ℚ) * ((2 : ℕ) : ℚ)) = ((0 : ℕ) : ℚ) by norm_num,
        Nat.floor_natCast]
      omega]
    decide
  have ht : trainRun (some (ScalerSt.mk ([] : List ℚ))) (fun _ => (0 : ℚ))
      2 1 1 0 5000 [0, 1] (fun _ _ => 0) (fun _ _ _ => 0) =
      .ok (trainTraceOf (fun _ => (0 : ℚ)) 2 1 1 0 5000 [0, 1] (fun _ _ => 0)
        (fun _ _ _ => 0)) := by
    rw [trainRun_some_eq, if_neg h0, if_neg (by simp)]
  exact holdout_carving (ScalerSt.mk []) (fun _ => (0 : ℚ)) 2 1 1 5000 0 [0, 1]
    (fun _ _ => 0) (fun _ _ _ => 0) (le_refl 0) (by decide) _ ht

theorem flatMap_epochSteps_length (E L B : ℕ) (i0 : ℕ → List ℕ)
    (sigs : ℕ → ℕ → ℕ → ℕ) :
    ((List.range E).flatMap fun e =>
      epochSteps L B (idxsAtEpoch i0 sigs e)).length = E * numBatches L B := by
  rw [List.length_flatMap]
  have hmap : (List.range E).map
      (List.length ∘ fun e => epochSteps L B (idxsAtEpoch i0 sigs e)) =
      (List.range E).map fun _ => numBatches L B :=
    List.map_congr_left fun e _ => by
      simp only [Function.comp_apply, epochSteps, List.length_map,
        List.length_range]
  rw [hmap]
  simp [List.map_const']

theorem epochSteps_flatten (L B : ℕ) (hB : 1 ≤ B) (idxs : ℕ → List ℕ) (k : ℕ)
    (hlen : (idxs k).length = L) :
    ((epochSteps L B idxs).map fun s => s k).flatten = idxs k := by
  rw [epochSteps, List.map_map]
  exact join_chunks B hB L (idxs k) hlen

theorem epochSteps_batch_le (L B : ℕ) (idxs : ℕ → List ℕ) (s : ℕ → List ℕ)
    (hs : s ∈ epochSteps L B idxs) (k : ℕ) : (s k).length ≤ B := by
  obtain ⟨i, _, rfl⟩ := List.mem_map.mp hs
  exact List.length_take_le B _

/-- C7: a `train` call that reaches the epoch loop (scaler present, at least
one retained row, `batch_size ≥ 1`) always returns a trace running exactly
`epochs * ceil(Ntrain / batch_size)` optimizer steps — the full requested
epoch count, with no early termination on convergence — organized as `epochs`
rounds of `ceil(Ntrain / batch_size)` steps each; the steps of epoch `e`, in
order, carry for every member `k` the consecutive `batch_size`-chunks of that
member's epoch-`e` index stream (their concatenation is exactly the stream,
and each chunk has at most `batch_size` entries), with all members' batches in
one shared step; and the end-of-epoch reshuffle re-permutes each member's
index row in ordering only, so the multiset of sampled row indices is
invariant across epochs (each epoch's stream is a permutation of the bootstrap
draw). -/
theorem train_epoch_structure {α : Type} (sc : ScalerSt α) (inputs : ℕ → α)
    (N B E maxlog : ℕ) (r : ℚ) (perm : List ℕ)
    (draw : ℕ → ℕ → ℕ) (sigs : ℕ → ℕ → ℕ → ℕ)
    (hB : 1 ≤ B) (h0 : (retainedIdxOf N r maxlog perm).length ≠ 0)
    (hsig : ∀ e k, ((List.range (retainedIdxOf N r maxlog perm).length).map
      (sigs e k)).Perm
      (List.range (retainedIdxOf N r maxlog perm).length)) :
    ∃ t, trainRun (some sc) inputs N B E r maxlog perm draw sigs = .ok t ∧
      t.steps.length =
        E * numBatches (retainedIdxOf N r maxlog perm).length B ∧
      t.steps = (List.range E).flatMap t.stepsOfEpoch ∧
      (∀ e, e < E → (t.stepsOfEpoch e).length =
        numBatches (retainedIdxOf N r maxlog perm).length B) ∧
      (∀ e, e < E → ∀ k, ((t.stepsOfEpoch e).map fun s => s k).flatten =
        idxsAtEpoch t.idxs0 sigs e k) ∧
      (∀ e, e < E → ∀ s ∈ t.stepsOfEpoch e, ∀ k, (s k).length ≤ B) ∧
      (∀ e k, (idxsAtEpoch t.idxs0 sigs (e + 1) k).Perm
        (idxsAtEpoch t.idxs0 sigs e k)) ∧
      (∀ e k, (idxsAtEpoch t.idxs0 sigs e k).Perm (t.idxs0 k)) := by
  have hz : ¬(E ≠ 0 ∧ B = 0) := by omega
  have hrowlen : ∀ e k,
      (idxsAtEpoch (bootstrapIdxs draw (retainedIdxOf N r maxlog perm).length)
        sigs e k).length = (retainedIdxOf N r maxlog perm).length := by
    intro e k
    rw [idxsAtEpoch_length, bootstrapIdxs_length]
  refine ⟨trainTraceOf inputs N B E r maxlog perm draw sigs,
    by rw [trainRun_some_eq, if_neg h0, if_neg hz],
    flatMap_epochSteps_length E _ B _ sigs, ?_, ?_, ?_, ?_, ?_, ?_⟩
  · show ((List.range E).flatMap fun e =>
        epochSteps (retainedIdxOf N r maxlog perm).length B
          (idxsAtEpoch
            (bootstrapIdxs draw (retainedIdxOf N r maxlog perm).length)
            sigs e)) =
      (List.range E).flatMap
        (trainTraceOf inputs N B E r maxlog perm draw sigs).stepsOfEpoch
    refine List.flatMap_congr fun e he => ?_
    show _ = if e < E then _ else _
    rw [if_pos (List.mem_range.mp he)]
  · intro e he
    show (if e < E then
        epochSteps (retainedIdxOf N r maxlog perm).length B
          (idxsAtEpoch
            (bootstrapIdxs draw (retainedIdxOf N r maxlog perm).length)
            sigs e)
      else []).length = _
    rw [if_pos he, epochSteps, List.length_map, List.length_range]
  · intro e he k
    show ((if e < E then
        epochSteps (retainedIdxOf N r maxlog perm).length B
          (idxsAtEpoch
            (bootstrapIdxs draw (retainedIdxOf N r maxlog perm).length)
            sigs e)
      else []).map fun s => s k).flatten = _
    rw [if_pos he]
    exact epochSteps_flatten _ B hB _ k (hrowlen e k)
  · intro e he s hs k
    rw [show (trainTraceOf inputs N B E r maxlog perm draw sigs).stepsOfEpoch e
        = if e < E then
            epochSteps (retainedIdxOf N r maxlog perm).length B
              (idxsAtEpoch
                (bootstrapIdxs draw (retainedIdxOf N r maxlog perm).length)
                sigs e)
          else [] from rfl, if_pos he] at hs
    exact epochSteps_batch_le _ B _ s hs k
  · intro e k
    show (shuffleRows
        (idxsAtEpoch (bootstrapIdxs draw (retainedIdxOf N r maxlog perm).length)
          sigs e) (sigs e) k).Perm _
    refine shuffleRows_perm _ _ _ ?_
    rw [hrowlen e k]
    exact hsig e k
  · intro e k
    refine idxsAtEpoch_perm _ _ (fun e' k' => ?_) e k
    show ((List.range ((bootstrapIdxs draw
        (retainedIdxOf N r maxlog perm).length) k').length).map
        (sigs e' k')).Perm
      (List.range ((bootstrapIdxs draw
        (retainedIdxOf N r maxlog perm).length) k').length)
    rw [bootstrapIdxs_length]
    exact hsig e' k'

/-- Witness for C7 on a concrete call: `N = 2` rows, ratio `0`, one epoch,
batch size 1, identity reshuffle permutations. -/
theorem train_epoch_structure_witness :
    ∃ t, trainRun (some (ScalerSt.mk ([] : List ℚ))) (fun _ => (0 : ℚ))
        2 1 1 0 5000 [0, 1] (fun _ _ => 0) (fun _ _ j => j) = .ok t ∧
      t.steps.length =
        1 * numBatches (retainedIdxOf 2 0 5000 [0, 1]).length 1 ∧
      t.steps = (List.range 1).flatMap t.stepsOfEpoch ∧
      (∀ e, e < 1 → (t.stepsOfEpoch e).length =
        numBatches (retainedIdxOf 2 0 5000 [0, 1]).length 1) ∧
      (∀ e, e < 1 → ∀ k, ((t.stepsOfEpoch e).map fun s => s k).flatten =
        idxsAtEpoch t.idxs0 (fun _ _ j => j) e k) ∧
      (∀ e, e < 1 → ∀ s ∈ t.stepsOfEpoch e, ∀ k, (s k).length ≤ 1) ∧
      (∀ e k, (idxsAtEpoch t.idxs0 (fun _ _ j => j) (e + 1) k).Perm
        (idxsAtEpoch t.idxs0 (fun _ _ j => j) e k)) ∧
      (∀ e k, (idxsAtEpoch t.idxs0 (fun _ _ j => j) e k).Perm (t.idxs0 k)) := by
  have h0 : (retainedIdxOf 2 0 5000 [0, 1]).length ≠ 0 := by
    rw [retainedIdxOf, show numHoldout 2 0 5000 = 0 by
      rw [numHoldout_eq 2 5000 0 (le_refl 0),
        show ((0 : ℚ) * ((2 : ℕ) : ℚ)) = ((0 : ℕ) : ℚ) by norm_num,
        Nat.floor_natCast]
      omega]
    decide
  have hL : (retainedIdxOf 2 0 5000 [0, 1]).length = 2 := by
    rw [retainedIdxOf, show numHoldout 2 0 5000 = 0 by
      rw [numHoldout_eq 2 5000 0 (le_refl 0),
        show ((0 : ℚ) * ((2 : ℕ) : ℚ)) = ((0 : ℕ) : ℚ) by norm_num,
        Nat.floor_natCast]
      omega]
    decide
  refine train_epoch_structure (ScalerSt.mk ([] : List ℚ)) (fun _ => (0 : ℚ))
    2 1 1 5000 0 [0, 1] (fun _ _ => 0) (fun _ _ j => j) (le_refl 1) h0 ?_
  intro e k
  rw [hL]
  exact List.Perm.of_eq (List.map_id _)

/-! ### Persistence (`NN.save` lines 331-352, load path of `NN.finalize`
lines 194-211)

`save` writes the variable values to `"{name}.mat"` (a MATLAB archive via
`savemat`) keyed by decimal indices — see `saveVarVals`. The live load path
reads `self.model_dir` with `np.load` (an `.npz`-style archive) and resolves
every archive key as a graph tensor NAME — see `restoreByName`. The two are
modelled at the key level, where the mismatch is already fatal. -/

/-- The archive written by `NN.save` (lines 349-352): enumerating
`self.nonoptvars + self.optvars`, each value is stored under the
decimal-index key `str(i)` (`var_vals[str(i)] = var_val`). Values are
abstract. -/
def saveVarVals {α : Type} (vals : List α) : List (String × α) :=
  vals.enum.map fun p => (toString p.1, p.2)

/-- The graph's variable names: `finalize` constructs every model variable
inside `tf.variable_scope(self.name)` (lines 151-159) — the Scaler's
variables directly under it, and layer `i`'s variables additionally under
`"Layer%i"` — so every variable's full name is `"{model_name}/{inner}"`. The
inner names come from `TensorStandardScaler` and `FC` (not under `src/`) and
are left abstract. -/
def graphVarNames (model_name : String) (inner : List String) : List String :=
  inner.map fun s => model_name ++ "/" ++ s

/-- The value-restoring loop of `NN.finalize` in load mode (lines 206-211):
for each key `var_name` of the loaded archive,
`self.sess.graph.get_tensor_by_name("{var_name}:0")` resolves the key as a
tensor name and raises `KeyError` when no tensor of that name exists; on
success the value is assigned to that tensor. -/
def restoreByName {α : Type} (archive : List (String × α))
    (registry : List String) : Except String (List (String × α)) :=
  match archive with
  | [] => .ok []
  | (k, v) :: rest =>
    if registry.contains k then
      (restoreByName rest registry).map fun todo => (k, v) :: todo
    else
      .error ("KeyError: no tensor named " ++ k ++ ":0")

/-- C2 fails on the code: `save` keys the archive by decimal indices (and
writes a `.mat`), while the load path of `finalize` treats every archive key
as a graph tensor name; no scoped variable of a finalized model is named
`"0"`, so restoring a freshly saved archive fails at the very first key
instead of reproducing the original model's predictions. Shown on a concrete
finalized model `"model"` with scaler variables `mu`, `sigma` and one layer
with `FC_weights`, `FC_biases`. -/
theorem save_then_restore_fails :
    saveVarVals ([10, 20, 30, 40] : List ℕ) =
      [("0", 10), ("1", 20), ("2", 30), ("3", 40)] ∧
    graphVarNames "model"
        ["mu", "sigma", "Layer0/FC_weights", "Layer0/FC_biases"] =
      ["model/mu", "model/sigma", "model/Layer0/FC_weights",
        "model/Layer0/FC_biases"] ∧
    restoreByName (saveVarVals ([10, 20, 30, 40] : List ℕ))
        (graphVarNames "model"
          ["mu", "sigma", "Layer0/FC_weights", "Layer0/FC_biases"]) =
      .error "KeyError: no tensor named 0:0" := by
  refine ⟨rfl, rfl, rfl⟩

end POPLIN
